import Mathlib

/-!
Shallow embedding of the `estalloc` TLSF memory allocator
(`src/estalloc.c`, `src/estalloc.h`) and proofs about it.

Modelled build configuration (the default 32-bit embedded build):
  * `ESTALLOC_24BIT` (`ESTALLOC_MEMSIZE_T` = `uint32_t`), 32-bit pointers,
  * `ESTALLOC_ALIGNMENT = 8`, hence `ALIGNMENT_MASK = 7`,
    `ESTALLOC_IGNORE_LSBS = 5`,
  * `ESTALLOC_FLI_BIT_WIDTH = 9`, `ESTALLOC_SLI_BIT_WIDTH = 3`,
  * `ESTALLOC_MIN_MEMORY_BLOCK_SIZE = 1 <<< 5 = 32`,
  * `sizeof(USED_BLOCK) = 8`, `sizeof(FREE_BLOCK) = 16`,
    `sizeof(MEMORY_POOL) = 368`.

Machine integers are modelled as `Nat` with explicit `% 2^32` (or masks)
exactly where the C computation can wrap.  Pointers are modelled as byte
offsets from the pool base; the C null pointer is offset `0` (block offsets
are always `≥ sizeof(MEMORY_POOL) > 0`, so `0` is unambiguous).
-/

namespace Estalloc

/-! ## Configuration constants (estalloc.h / estalloc.c) -/

def ESTALLOC_FLI_BIT_WIDTH : Nat := 9
def ESTALLOC_SLI_BIT_WIDTH : Nat := 3
def ESTALLOC_IGNORE_LSBS : Nat := 5
def ESTALLOC_ALIGNMENT : Nat := 8
def ALIGNMENT_MASK : Nat := ESTALLOC_ALIGNMENT - 1

/-- `#define SIZE_FREE_BLOCKS ((ESTALLOC_FLI_BIT_WIDTH + 1) * (1 << ESTALLOC_SLI_BIT_WIDTH))` -/
def SIZE_FREE_BLOCKS : Nat := (ESTALLOC_FLI_BIT_WIDTH + 1) * (1 <<< ESTALLOC_SLI_BIT_WIDTH)

def ESTALLOC_MIN_MEMORY_BLOCK_SIZE : Nat := 1 <<< ESTALLOC_IGNORE_LSBS

def sizeof_USED_BLOCK : Nat := 8
def sizeof_FREE_BLOCK : Nat := 16
def sizeof_MEMORY_POOL : Nat := 368

def MSB_BIT1_FLI : Nat := 0x8000
def MSB_BIT1_SLI : Nat := 0x80

/-- `#define FLI(x) ((x) >> ESTALLOC_SLI_BIT_WIDTH)` -/
def FLI (x : Nat) : Nat := x >>> ESTALLOC_SLI_BIT_WIDTH

/-- `#define SLI(x) ((x) & ((1 << ESTALLOC_SLI_BIT_WIDTH) - 1))` -/
def SLI (x : Nat) : Nat := x &&& ((1 <<< ESTALLOC_SLI_BIT_WIDTH) - 1)

/-! ## Leading-zero helpers (`nlz16`, `nlz8` in estalloc.c)

The C versions shift a `uint16_t` (resp. `uint8_t`) left, so left shifts are
truncated with `% 2^16` (resp. `% 2^8`). -/

/-- `nlz16` from estalloc.c: number of leading zeros of a 16-bit value. -/
def nlz16 (x : Nat) : Nat :=
  if x = 0 then 16 else
  let n := 1
  let p := if (x >>> 8) = 0 then (n + 8, (x <<< 8) % 65536) else (n, x)
  let n := p.1
  let x := p.2
  let p := if (x >>> 12) = 0 then (n + 4, (x <<< 4) % 65536) else (n, x)
  let n := p.1
  let x := p.2
  let p := if (x >>> 14) = 0 then (n + 2, (x <<< 2) % 65536) else (n, x)
  let n := p.1
  let x := p.2
  n - (x >>> 15)

/-- `nlz8` from estalloc.c: number of leading zeros of an 8-bit value. -/
def nlz8 (x : Nat) : Nat :=
  if x = 0 then 8 else
  let n := 1
  let p := if (x >>> 4) = 0 then (n + 4, (x <<< 4) % 256) else (n, x)
  let n := p.1
  let x := p.2
  let p := if (x >>> 6) = 0 then (n + 2, (x <<< 2) % 256) else (n, x)
  let n := p.1
  let x := p.2
  n - (x >>> 7)

/-! ## `calc_index` (estalloc.c lines 270-294) -/

/-- `calc_index` from estalloc.c: maps an allocation size to the linear index
`(fli << SLI_BITS) + sli` of its free-list class, clamping overflowing sizes
to the last class. -/
def calc_index (alloc_size : Nat) : Nat :=
  -- check overflow
  if alloc_size >>> (ESTALLOC_FLI_BIT_WIDTH + ESTALLOC_SLI_BIT_WIDTH + ESTALLOC_IGNORE_LSBS) ≠ 0
  then SIZE_FREE_BLOCKS - 1
  else
    -- calculate First Level Index
    let fli := 16 - nlz16 (alloc_size >>> (ESTALLOC_SLI_BIT_WIDTH + ESTALLOC_IGNORE_LSBS))
    -- calculate Second Level Index
    let shift := if fli = 0 then ESTALLOC_IGNORE_LSBS else ESTALLOC_IGNORE_LSBS - 1 + fli
    let sli := (alloc_size >>> shift) &&& ((1 <<< ESTALLOC_SLI_BIT_WIDTH) - 1)
    (fli <<< ESTALLOC_SLI_BIT_WIDTH) + sli

/-! ## A balanced range checker

`checkTree p d lo n` checks `p` on the interval `[lo, lo + n)` by binary
splitting (so that kernel reduction only needs logarithmic stack depth). -/

def checkTree (p : Nat → Bool) : Nat → Nat → Nat → Bool
  | 0, lo, n => Nat.ble n 0 || (Nat.beq n 1 && p lo)
  | d+1, lo, n =>
    if n ≤ 1 then Nat.ble n 0 || (Nat.beq n 1 && p lo)
    else checkTree p d lo (n / 2) && checkTree p d (lo + n / 2) (n - n / 2)

theorem checkTree_sound (p : Nat → Bool) :
    ∀ d lo n, checkTree p d lo n = true → ∀ i, i < n → p (lo + i) = true := by
  intro d
  induction d with
  | zero =>
    intro lo n h i hi
    simp only [checkTree, Bool.or_eq_true, Bool.and_eq_true] at h
    rcases h with h | ⟨h1, h2⟩
    · have := Nat.le_of_ble_eq_true h
      omega
    · have hn : n = 1 := Nat.eq_of_beq_eq_true h1
      have : i = 0 := by omega
      simpa [this] using h2
  | succ d ih =>
    intro lo n h i hi
    simp only [checkTree] at h
    by_cases hn : n ≤ 1
    · rw [if_pos hn] at h
      simp only [Bool.or_eq_true, Bool.and_eq_true] at h
      rcases h with h | ⟨h1, h2⟩
      · have : n = 0 := by have := Nat.le_of_ble_eq_true h; omega
        omega
      · have hn1 : n = 1 := Nat.eq_of_beq_eq_true h1
        have : i = 0 := by omega
        simpa [this] using h2
    · rw [if_neg hn] at h
      rcases Bool.and_eq_true_iff.mp h with ⟨h1, h2⟩
      rcases Nat.lt_or_ge i (n / 2) with hlt | hge
      · exact ih lo (n / 2) h1 i hlt
      · have hi2 : i - n / 2 < n - n / 2 := by omega
        have := ih (lo + n / 2) (n - n / 2) h2 (i - n / 2) hi2
        have harg : lo + n / 2 + (i - n / 2) = lo + i := by omega
        rwa [harg] at this

/-! ## Reduction of `calc_index` to the quotient `t = s >>> IGNORE_LSBS`

`calc_index s` depends on `s` only through `s >>> 5` (every shift it performs
is by at least `IGNORE_LSBS = 5` bits).  `calcIndexT` is the resulting
function of `t = s >>> 5`; it makes exhaustive checking of `calc_index`'s
order/bound properties feasible (`t < 2^12` instead of `s < 2^17`). -/

def calcIndexT (t : Nat) : Nat :=
  if t >>> 12 ≠ 0 then SIZE_FREE_BLOCKS - 1
  else
    let fli := 16 - nlz16 (t >>> 3)
    let shift := if fli = 0 then 0 else fli - 1
    (fli <<< 3) + ((t >>> shift) &&& 7)

theorem calc_index_eq_calcIndexT (s : Nat) : calc_index s = calcIndexT (s >>> 5) := by
  have h17 : s >>> 17 = s >>> 5 >>> 12 := Nat.shiftRight_add s 5 12
  have h8 : s >>> 8 = s >>> 5 >>> 3 := Nat.shiftRight_add s 5 3
  have e1 : ESTALLOC_FLI_BIT_WIDTH + ESTALLOC_SLI_BIT_WIDTH + ESTALLOC_IGNORE_LSBS = 17 := rfl
  have e2 : ESTALLOC_SLI_BIT_WIDTH + ESTALLOC_IGNORE_LSBS = 8 := rfl
  have e4 : (1 <<< 3 : Nat) - 1 = 7 := rfl
  simp only [calc_index, calcIndexT, e1, e2, h17, h8]
  by_cases hc : s >>> 5 >>> 12 = 0
  · by_cases hf : 16 - nlz16 (s >>> 5 >>> 3) = 0
    · simp only [hc, hf, if_pos, ite_true, ite_false, if_neg, not_true, not_false_iff,
        ne_eq, not_not, Nat.shiftRight_zero]
      norm_num [ESTALLOC_IGNORE_LSBS, ESTALLOC_SLI_BIT_WIDTH, e4]
    · have h45 : ESTALLOC_IGNORE_LSBS - 1 + (16 - nlz16 (s >>> 5 >>> 3)) =
          5 + (16 - nlz16 (s >>> 5 >>> 3) - 1) := by
        simp only [ESTALLOC_IGNORE_LSBS]; omega
      simp only [hc, hf, ne_eq, not_not, ite_true, ite_false, if_neg, not_false_iff,
        h45, Nat.shiftRight_add]
      norm_num [ESTALLOC_SLI_BIT_WIDTH, e4]
  · simp [hc]

/-- Nominal minimum size of a free-list class, read off the FLI/SLI class
table in the header comment of estalloc.c (8-byte alignment column): class
`(fli, sli)` starts at `sli * 2^5` when `fli = 0`, and at
`(8 + sli) * 2^(4 + fli)` otherwise. -/
def class_nominal_min (c : Nat) : Nat :=
  let fli := FLI c
  let sli := SLI c
  if fli = 0 then sli <<< 5 else (8 + sli) <<< (4 + fli)

/-- Exhaustive check of the `calc_index` facts on the quotient domain:
adjacent monotonicity, the array bound, and the nominal-minimum bound. -/
def calcIndexChecks : Bool :=
  checkTree (fun t =>
    Nat.ble (calcIndexT t) (calcIndexT (t+1)) &&
    Nat.blt (calcIndexT t) 80 &&
    Nat.ble (class_nominal_min (calcIndexT t)) (32 * t)) 13 0 4096

set_option maxRecDepth 20000 in
theorem calcIndexChecks_true : calcIndexChecks = true := by rfl

theorem calcIndexT_facts (t : Nat) (ht : t < 4096) :
    calcIndexT t ≤ calcIndexT (t+1) ∧ calcIndexT t < 80 ∧
      class_nominal_min (calcIndexT t) ≤ 32 * t := by
  have h := checkTree_sound _ 13 0 4096 calcIndexChecks_true t ht
  simp only [Nat.zero_add, Bool.and_eq_true] at h
  rcases h with ⟨⟨h1, h2⟩, h3⟩
  exact ⟨by simpa using h1, by simpa using h2, by simpa using h3⟩

theorem calcIndexT_clamp (t : Nat) (ht : 4096 ≤ t) : calcIndexT t = 79 := by
  have h12 : t >>> 12 ≠ 0 := by
    rw [Nat.shiftRight_eq_div_pow]
    have : 0 < t / 2 ^ 12 := Nat.div_pos (by norm_num at ht ⊢; omega) (by norm_num)
    omega
  simp [calcIndexT, h12, SIZE_FREE_BLOCKS, ESTALLOC_FLI_BIT_WIDTH, ESTALLOC_SLI_BIT_WIDTH]

theorem calcIndexT_lt_80 (t : Nat) : calcIndexT t < 80 := by
  rcases Nat.lt_or_ge t 4096 with h | h
  · exact (calcIndexT_facts t h).2.1
  · rw [calcIndexT_clamp t h]; norm_num

theorem calcIndexT_le_succ (t : Nat) : calcIndexT t ≤ calcIndexT (t+1) := by
  rcases Nat.lt_or_ge t 4096 with h | h
  · exact (calcIndexT_facts t h).1
  · rw [calcIndexT_clamp t h, calcIndexT_clamp (t+1) (by omega)]

theorem calcIndexT_monotone : Monotone calcIndexT :=
  monotone_nat_of_le_succ calcIndexT_le_succ

theorem class_nominal_min_le (t : Nat) : class_nominal_min (calcIndexT t) ≤ 32 * t := by
  rcases Nat.lt_or_ge t 4096 with h | h
  · exact (calcIndexT_facts t h).2.2
  · rw [calcIndexT_clamp t h]
    have : class_nominal_min 79 = 122880 := by decide
    omega

theorem shiftRight5_le_self_div (s : Nat) : 32 * (s >>> 5) ≤ s := by
  rw [Nat.shiftRight_eq_div_pow]
  have := Nat.div_mul_le_self s (2 ^ 5)
  omega

theorem shiftRight5_mono {s1 s2 : Nat} (h : s1 ≤ s2) : s1 >>> 5 ≤ s2 >>> 5 := by
  simp only [Nat.shiftRight_eq_div_pow]
  exact Nat.div_le_div_right h

/-- C10: for every size `s` (including 0 and sizes past the overflow clamp),
`calc_index s < SIZE_FREE_BLOCKS`, and the derived first/second level indices
satisfy the bitmap-array bounds and the assertions of `calc_index` and
`add_free_block` (`fli ≤ ESTALLOC_FLI_BIT_WIDTH`, `sli ≤ 2^SLI_BITS - 1`). -/
theorem c10_calc_index_in_bounds (s : Nat) :
    calc_index s < SIZE_FREE_BLOCKS ∧
    FLI (calc_index s) ≤ ESTALLOC_FLI_BIT_WIDTH ∧
    SLI (calc_index s) ≤ (1 <<< ESTALLOC_SLI_BIT_WIDTH) - 1 := by
  have hb : calc_index s < 80 := by
    rw [calc_index_eq_calcIndexT]; exact calcIndexT_lt_80 _
  refine ⟨by simpa [SIZE_FREE_BLOCKS, ESTALLOC_FLI_BIT_WIDTH, ESTALLOC_SLI_BIT_WIDTH] using hb,
    ?_, ?_⟩
  · have : calc_index s >>> 3 ≤ 79 >>> 3 := by
      simp only [Nat.shiftRight_eq_div_pow]
      exact Nat.div_le_div_right (by omega)
    simpa [FLI, ESTALLOC_FLI_BIT_WIDTH, ESTALLOC_SLI_BIT_WIDTH] using this
  · simpa [SLI, ESTALLOC_SLI_BIT_WIDTH] using Nat.and_le_right

/-- C5: `calc_index` is monotone non-decreasing; every size in a class is at
least the class's nominal minimum size; hence any block size whose class is
strictly above a request size's class can serve the request. -/
theorem c5_calc_index_monotone :
    (∀ s1 s2, s1 ≤ s2 → calc_index s1 ≤ calc_index s2) ∧
    (∀ s, class_nominal_min (calc_index s) ≤ s) ∧
    (∀ b r, calc_index r < calc_index b → r ≤ b) := by
  have mono : ∀ s1 s2, s1 ≤ s2 → calc_index s1 ≤ calc_index s2 := by
    intro s1 s2 h
    rw [calc_index_eq_calcIndexT, calc_index_eq_calcIndexT]
    exact calcIndexT_monotone (shiftRight5_mono h)
  refine ⟨mono, ?_, ?_⟩
  · intro s
    rw [calc_index_eq_calcIndexT]
    exact le_trans (class_nominal_min_le (s >>> 5)) (shiftRight5_le_self_div s)
  · intro b r h
    by_contra hbr
    exact absurd (mono b r (by omega)) (by omega)

theorem c5_calc_index_monotone_witness :
    (40 ≤ 100 ∧ calc_index 40 ≤ calc_index 100) ∧
    (calc_index 100 < calc_index 5000 ∧ 100 ≤ 5000) :=
  ⟨⟨by decide, c5_calc_index_monotone.1 40 100 (by decide)⟩,
   ⟨by decide, c5_calc_index_monotone.2.2 5000 100 (by decide)⟩⟩

/-! ## Memory model

The block-pool region is modelled at 32-bit-word granularity: in the
modelled configuration every header access the allocator performs (the
`uint32_t` size field and the three 32-bit pointers of a `FREE_BLOCK`) is a
4-byte-aligned 4-byte load or store.  `Mem` maps a word index (byte offset
divided by 4) to the word's value.  Byte-granular payload loops (the
`calloc` zero fill, the `realloc` copy) are expressed as word operations
with an explicit little-endian partial word at the end of the range.

Pointers are byte offsets from the pool base; null is offset `0`. -/

def Mem : Type := Nat → Nat

def load32 (m : Mem) (off : Nat) : Nat := m (off / 4)

def store32 (m : Mem) (off v : Nat) : Mem :=
  fun i => if i = off / 4 then v % 2^32 else m i

/-- Wrapping 32-bit subtraction (for `a`, `b` < `2^32` this is `a - b` as
computed on `uint32_t` / `ESTALLOC_MEMSIZE_T`). -/
def u32_sub (a b : Nat) : Nat := (a + (2^32 - b % 2^32)) % 2^32

/-! ## Block macros (estalloc.c lines 178-187) -/

/-- `#define BLOCK_SIZE(p) (((p)->size) & ~ALIGNMENT_MASK)` (`~` on `uint32_t`). -/
def BLOCK_SIZE (m : Mem) (p : Nat) : Nat := load32 m p &&& (2^32 - 8)

/-- `#define PHYS_NEXT(p) ((void *)((uint8_t *)(p) + BLOCK_SIZE(p)))` -/
def PHYS_NEXT (m : Mem) (p : Nat) : Nat := p + BLOCK_SIZE m p

def SET_USED_BLOCK (m : Mem) (p : Nat) : Mem := store32 m p (load32 m p ||| 0x01)

def SET_FREE_BLOCK (m : Mem) (p : Nat) : Mem := store32 m p (load32 m p &&& (2^32 - 2))

def IS_USED_BLOCK (m : Mem) (p : Nat) : Bool := (load32 m p &&& 0x01) != 0

def IS_FREE_BLOCK (m : Mem) (p : Nat) : Bool := ! IS_USED_BLOCK m p

def SET_PREV_USED (m : Mem) (p : Nat) : Mem := store32 m p (load32 m p ||| 0x02)

def SET_PREV_FREE (m : Mem) (p : Nat) : Mem := store32 m p (load32 m p &&& (2^32 - 3))

def IS_PREV_USED (m : Mem) (p : Nat) : Bool := (load32 m p &&& 0x02) != 0

def IS_PREV_FREE (m : Mem) (p : Nat) : Bool := ! IS_PREV_USED m p

/-- `#define BLOCK_ADRS(p) ((void *)((uint8_t *)(p) - sizeof(USED_BLOCK)))` -/
def BLOCK_ADRS (p : Nat) : Nat := p - sizeof_USED_BLOCK

/-! ## Pool state (`struct MEMORY_POOL`)

The header fields (`size`, the two bitmaps, the `free_blocks` table) are
modelled as record fields rather than as bytes of `mem`; the allocator only
ever accesses them through the struct, and they occupy the first
`sizeof(MEMORY_POOL) = 368` bytes, which no block ever overlaps.
`free_sli_bitmap i` holds a `uint8_t` (index `i ≤ 10`), `free_fli_bitmap` a
`uint16_t`, `free_blocks i` a stored pointer (`0` = null). -/

structure Pool where
  size : Nat
  free_fli_bitmap : Nat
  free_sli_bitmap : Nat → Nat
  free_blocks : Nat → Nat
  mem : Mem

/-- `#define BPOOL_TOP(memory_pool)`: first block offset. -/
def BPOOL_TOP : Nat := sizeof_MEMORY_POOL

/-- `#define BPOOL_END(memory_pool)`: one-past-the-end offset. -/
def BPOOL_END (pool : Pool) : Nat := pool.size

/-! ## Free-list maintenance (estalloc.c lines 303-356) -/

/-- `add_free_block` from estalloc.c. -/
def add_free_block (pool : Pool) (target : Nat) : Pool :=
  let m1 := SET_FREE_BLOCK pool.mem target
  -- FREE_BLOCK **top_adrs = target + BLOCK_SIZE(target) - sizeof(FREE_BLOCK *); *top_adrs = target
  let m2 := store32 m1 (target + BLOCK_SIZE m1 target - 4) target
  let index := calc_index (BLOCK_SIZE m2 target)
  let fli := FLI index
  let sli := SLI index
  let fliB := pool.free_fli_bitmap ||| (MSB_BIT1_FLI >>> fli)
  let sliB := fun i =>
    if i = fli then pool.free_sli_bitmap fli ||| (MSB_BIT1_SLI >>> sli)
    else pool.free_sli_bitmap i
  -- target->prev_free = NULL; target->next_free = pool->free_blocks[index]
  let m3 := store32 m2 (target + 8) 0
  let head := pool.free_blocks index
  let m4 := store32 m3 (target + 4) head
  -- if (target->next_free != NULL) target->next_free->prev_free = target
  let m5 := if head ≠ 0 then store32 m4 (head + 8) target else m4
  let fb := fun i => if i = index then target else pool.free_blocks i
  { pool with mem := m5, free_fli_bitmap := fliB, free_sli_bitmap := sliB, free_blocks := fb }

/-- `remove_free_block` from estalloc.c. -/
def remove_free_block (pool : Pool) (target : Nat) : Pool :=
  let m := pool.mem
  let prevf := load32 m (target + 8)   -- target->prev_free
  let nextf := load32 m (target + 4)   -- target->next_free
  let pool1 :=
    if prevf = 0 then
      -- top of linked list
      let index := calc_index (BLOCK_SIZE m target)
      let fb := fun i => if i = index then nextf else pool.free_blocks i
      if nextf = 0 then
        let fli := FLI index
        let sli := SLI index
        let sliB := fun i =>
          if i = fli then pool.free_sli_bitmap fli &&& (255 ^^^ (MSB_BIT1_SLI >>> sli))
          else pool.free_sli_bitmap i
        let fliB :=
          if sliB fli = 0 then pool.free_fli_bitmap &&& (65535 ^^^ (MSB_BIT1_FLI >>> fli))
          else pool.free_fli_bitmap
        { pool with free_blocks := fb, free_sli_bitmap := sliB, free_fli_bitmap := fliB }
      else
        { pool with free_blocks := fb }
    else
      -- target->prev_free->next_free = target->next_free
      { pool with mem := store32 m (prevf + 4) nextf }
  -- if (target->next_free != NULL) target->next_free->prev_free = target->prev_free
  if nextf ≠ 0 then { pool1 with mem := store32 pool1.mem (nextf + 8) prevf } else pool1

/-! ## Split and merge (estalloc.c lines 367-397) -/

/-- `split_block` from estalloc.c: returns the split-off free block (or
none) together with the updated memory. -/
def split_block (m : Mem) (target size : Nat) : Option Nat × Mem :=
  if u32_sub (BLOCK_SIZE m target) size ≤ ESTALLOC_MIN_MEMORY_BLOCK_SIZE then (none, m)
  else
    let split := target + size
    let m1 := store32 m split (u32_sub (BLOCK_SIZE m target) size)
    let m2 := store32 m1 target (size ||| (load32 m1 target &&& ALIGNMENT_MASK))
    (some split, m2)

/-- `merge_block` from estalloc.c: `target->size += BLOCK_SIZE(next)`. -/
def merge_block (m : Mem) (target next : Nat) : Mem :=
  store32 m target ((load32 m target + BLOCK_SIZE m next) % 2^32)

/-! ## `est_init` (estalloc.c lines 408-449) -/

/-- `est_init` from estalloc.c, applied to a buffer whose bytes are `m0`.
The assertions of the C code are preconditions on the caller; the state
they would reject is simply constructed. -/
def est_init (m0 : Mem) (size0 : Nat) : Pool :=
  let size := size0 &&& (2^32 - 8)   -- size &= ~(unsigned int)ALIGNMENT_MASK
  let sentinel_size :=
    (sizeof_USED_BLOCK + (((2^32 - sizeof_USED_BLOCK) % 2^32) &&& ALIGNMENT_MASK)) % 2^32
  let free_size := u32_sub (u32_sub size sizeof_MEMORY_POOL) sentinel_size
  let free_block := BPOOL_TOP
  let used_block := free_block + free_size
  let m1 := store32 m0 free_block (free_size ||| 0x02)     -- flag prev=1, used=0
  let m2 := store32 m1 used_block (sentinel_size ||| 0x01) -- flag prev=0, used=1
  let pool : Pool :=
    { size := size, free_fli_bitmap := 0, free_sli_bitmap := fun _ => 0,
      free_blocks := fun _ => 0, mem := m2 }
  add_free_block pool free_block

/-! ## `est_malloc` (estalloc.c lines 483-586)

The C function's `goto` labels become the helper functions
`malloc_split_finish` (label `SPLIT_BLOCK` and the function tail),
`malloc_found_target` (label `FOUND_TARGET_BLOCK`) and
`malloc_found_fli_sli` (label `FOUND_FLI_SLI`).  The first-fit loop gets
explicit fuel (`pool.size`, far more than any free list can hold); if the
fuel ran out the embedding would report out-of-memory with the pool
unchanged, exactly like the not-found case. -/

def malloc_split_finish (pool : Pool) (target alloc_size : Nat) : Option Nat × Pool :=
  let res := split_block pool.mem target alloc_size
  let pool1 :=
    match res.1 with
    | some release =>
      -- SET_PREV_USED(release); add_free_block(pool, release)
      add_free_block { pool with mem := SET_PREV_USED res.2 release } release
    | none =>
      -- FREE_BLOCK *next = PHYS_NEXT(target); SET_PREV_USED(next)
      { pool with mem := SET_PREV_USED res.2 (PHYS_NEXT res.2 target) }
  let pool2 := { pool1 with mem := SET_USED_BLOCK pool1.mem target }
  (some (target + sizeof_USED_BLOCK), pool2)

/-- `FOUND_TARGET_BLOCK`: unlink the list head `target` of class `index`
(inline head removal in `est_malloc`), then split and finish. -/
def malloc_found_target (pool : Pool) (index fli sli target alloc_size : Nat) :
    Option Nat × Pool :=
  let nextf := load32 pool.mem (target + 4)
  let fb := fun i => if i = index then nextf else pool.free_blocks i
  if nextf = 0 then
    let sliB := fun i =>
      if i = fli then pool.free_sli_bitmap fli &&& (255 ^^^ (MSB_BIT1_SLI >>> sli))
      else pool.free_sli_bitmap i
    let fliB :=
      if sliB fli = 0 then pool.free_fli_bitmap &&& (65535 ^^^ (MSB_BIT1_FLI >>> fli))
      else pool.free_fli_bitmap
    malloc_split_finish
      { pool with free_blocks := fb, free_sli_bitmap := sliB, free_fli_bitmap := fliB }
      target alloc_size
  else
    malloc_split_finish
      { pool with free_blocks := fb, mem := store32 pool.mem (nextf + 8) 0 }
      target alloc_size

/-- `FOUND_FLI_SLI`: recompute the index from `fli`/`sli` and use its head. -/
def malloc_found_fli_sli (pool : Pool) (fli sli alloc_size : Nat) : Option Nat × Pool :=
  let index := (fli <<< ESTALLOC_SLI_BIT_WIDTH) + sli
  let target := pool.free_blocks index
  if target = 0 then (none, pool)
  else malloc_found_target pool index fli sli target alloc_size

/-- The first-fit fallback loop of `est_malloc`. -/
def first_fit (m : Mem) (alloc_size : Nat) : Nat → Nat → Option Nat
  | 0, _ => none
  | fuel+1, target =>
    if target = 0 then none
    else if alloc_size ≤ BLOCK_SIZE m target then some target
    else first_fit m alloc_size fuel (load32 m (target + 4))

/-- The effective allocation size of `est_malloc`/`est_realloc`:
`alloc_size = size + sizeof(USED_BLOCK)`, rounded up to the alignment, then
raised to the minimum block size (all on `uint32_t`). -/
def malloc_alloc_size (size : Nat) : Nat :=
  let a0 := (size + sizeof_USED_BLOCK) % 2^32
  -- alloc_size += (-alloc_size & ALIGNMENT_MASK)
  let a1 := (a0 + (((2^32 - a0) % 2^32) &&& ALIGNMENT_MASK)) % 2^32
  -- check minimum alloc size
  if a1 < ESTALLOC_MIN_MEMORY_BLOCK_SIZE then ESTALLOC_MIN_MEMORY_BLOCK_SIZE else a1

/-- The search/allocate part of `est_malloc` (everything after `alloc_size`
is computed). -/
def malloc_search (pool : Pool) (alloc_size : Nat) : Option Nat × Pool :=
  let index := calc_index alloc_size
  -- At first, check only the beginning of the same size block
  let target := pool.free_blocks index
  if target ≠ 0 ∧ alloc_size ≤ BLOCK_SIZE pool.mem target then
    malloc_found_target pool index (FLI index) (SLI index) target alloc_size
  else
    -- and then, check the next (larger) size block
    let index1 := index + 1
    let fli := FLI index1
    let sli := SLI index1
    let target1 := pool.free_blocks index1
    if target1 ≠ 0 then
      malloc_found_target pool index1 fli sli target1 alloc_size
    else
      -- check in SLI bitmap table
      let masked := pool.free_sli_bitmap fli &&& ((MSB_BIT1_SLI >>> sli) - 1)
      if masked ≠ 0 then
        malloc_found_fli_sli pool fli (nlz8 masked) alloc_size
      else
        -- check in FLI bitmap table
        let masked2 := pool.free_fli_bitmap &&& ((MSB_BIT1_FLI >>> fli) - 1)
        if masked2 ≠ 0 then
          let fli2 := nlz16 masked2
          malloc_found_fli_sli pool fli2 (nlz8 (pool.free_sli_bitmap fli2)) alloc_size
        else
          -- Change strategy to First-fit
          match first_fit pool.mem alloc_size pool.size (pool.free_blocks (index1 - 1)) with
          | none => (none, pool)   -- out of memory
          | some t => malloc_split_finish (remove_free_block pool t) t alloc_size

/-- `est_malloc` from estalloc.c.  Returns the allocated pointer (none =
`NULL`, out of memory) and the updated pool. -/
def est_malloc (pool : Pool) (size : Nat) : Option Nat × Pool :=
  malloc_search pool (malloc_alloc_size size)

/-! ## `est_permalloc` (estalloc.c lines 597-644) -/

/-- The tail-finding do-while loop of `est_permalloc`: starting from block
`tail`, returns `(prev, tail)` with `PHYS_NEXT(tail) ≥ BPOOL_END`. -/
def find_tail (m : Mem) (endOff : Nat) : Nat → Nat → Option (Nat × Nat)
  | 0, _ => none
  | fuel+1, tail =>
    let prev := tail
    let tail1 := PHYS_NEXT m tail
    if PHYS_NEXT m tail1 < endOff then find_tail m endOff fuel tail1
    else some (prev, tail1)

/-- `est_permalloc` from estalloc.c. -/
def est_permalloc (pool : Pool) (size : Nat) : Option Nat × Pool :=
  let alloc_size := (size + (((2^32 - size % 2^32) % 2^32) &&& ALIGNMENT_MASK)) % 2^32
  match find_tail pool.mem (BPOOL_END pool) pool.size BPOOL_TOP with
  | none => (none, pool)
  | some (prev, tail) =>
    -- can resize it block?
    if IS_USED_BLOCK pool.mem prev then est_malloc pool size          -- FALLBACK
    else if u32_sub (BLOCK_SIZE pool.mem prev) sizeof_USED_BLOCK < alloc_size then
      est_malloc pool size                                            -- FALLBACK
    else
      let pool1 := remove_free_block pool prev
      let free_size := u32_sub (BLOCK_SIZE pool1.mem prev) alloc_size
      if free_size ≤ ESTALLOC_MIN_MEMORY_BLOCK_SIZE then
        -- no split, use all: prev->size += BLOCK_SIZE(tail); SET_USED_BLOCK(prev)
        let m1 := store32 pool1.mem prev
          ((load32 pool1.mem prev + BLOCK_SIZE pool1.mem tail) % 2^32)
        let m2 := SET_USED_BLOCK m1 prev
        (some (prev + sizeof_USED_BLOCK), { pool1 with mem := m2 })
      else
        -- split block
        let tail_size := (load32 pool1.mem tail + alloc_size) % 2^32  -- w/ flags
        let tail1 := tail - alloc_size
        let m1 := store32 pool1.mem tail1 tail_size
        let m2 := store32 m1 prev (u32_sub (load32 m1 prev) alloc_size) -- w/ flags
        (some (tail1 + sizeof_USED_BLOCK), add_free_block { pool1 with mem := m2 } prev)

/-! ## `est_calloc` (estalloc.c lines 655-668) -/

/-- Zero `count` full words starting at byte offset `dst`. -/
def zero_words (m : Mem) (dst : Nat) : Nat → Mem
  | 0 => m
  | k+1 => store32 (zero_words m dst k) (dst + 4 * k) 0

/-- Zero `len` bytes starting at byte offset `dst` (word-granular model of
the byte loop; the final partial word keeps its upper bytes). -/
def zero_bytes (m : Mem) (dst len : Nat) : Mem :=
  let q := len / 4
  let r := len % 4
  let m1 := zero_words m dst q
  if r = 0 then m1
  else
    let d := load32 m1 (dst + 4 * q)
    store32 m1 (dst + 4 * q) (d - d % 2^(8 * r))

/-- `est_calloc` from estalloc.c. -/
def est_calloc (pool : Pool) (nmemb size : Nat) : Option Nat × Pool :=
  let total_size := (nmemb * size) % 2^32
  match est_malloc pool total_size with
  | (none, pool1) => (none, pool1)
  | (some ptr, pool1) => (some ptr, { pool1 with mem := zero_bytes pool1.mem ptr total_size })

/-! ## `est_free` (estalloc.c lines 677-751) -/

/-- `est_free` from estalloc.c (release build: the `ESTALLOC_DEBUG`
validation walk is compiled out). -/
def est_free (pool : Pool) (ptr : Nat) : Pool :=
  if ptr = 0 then pool
  else
    let target := BLOCK_ADRS ptr
    -- check next block, merge?
    let next := PHYS_NEXT pool.mem target
    let pool1 :=
      if IS_FREE_BLOCK pool.mem next then
        let p := remove_free_block pool next
        { p with mem := merge_block p.mem target next }
      else
        { pool with mem := SET_PREV_FREE pool.mem next }
    -- check prev block, merge?
    let res :=
      if IS_PREV_FREE pool1.mem target then
        let prev := load32 pool1.mem (target - 4)
        let p := remove_free_block pool1 prev
        ({ p with mem := merge_block p.mem prev target }, prev)
      else (pool1, target)
    add_free_block res.1 res.2

/-! ## `est_realloc` (estalloc.c lines 763-824) -/

/-- Copy `count` full words from byte offset `src` to byte offset `dst`,
in ascending order from the evolving memory (like the C byte loop). -/
def copy_words (m : Mem) (dst src : Nat) : Nat → Mem
  | 0 => m
  | k+1 =>
    let m1 := copy_words m dst src k
    store32 m1 (dst + 4 * k) (load32 m1 (src + 4 * k))

/-- Copy `len` bytes (word-granular; final partial word merges the low
`len % 4` source bytes into the destination word). -/
def copy_bytes (m : Mem) (dst src len : Nat) : Mem :=
  let q := len / 4
  let r := len % 4
  let m1 := copy_words m dst src q
  if r = 0 then m1
  else
    let s := load32 m1 (src + 4 * q)
    let d := load32 m1 (dst + 4 * q)
    store32 m1 (dst + 4 * q) (s % 2^(8 * r) + (d - d % 2^(8 * r)))

/-- `est_realloc` from estalloc.c. -/
def est_realloc (pool : Pool) (ptr size : Nat) : Option Nat × Pool :=
  if ptr = 0 then est_malloc pool size
  else
    let target := BLOCK_ADRS ptr
    -- the alloc_size rounding lines are identical to est_malloc's
    let alloc_size := malloc_alloc_size size
    -- expand? part1: next phys block is free and enough size?
    let expanded : Option Pool :=
      if BLOCK_SIZE pool.mem target < alloc_size then
        let next := PHYS_NEXT pool.mem target
        if IS_USED_BLOCK pool.mem next then none                      -- goto ALLOC_AND_COPY
        else if BLOCK_SIZE pool.mem target + BLOCK_SIZE pool.mem next < alloc_size then none
        else
          let p := remove_free_block pool next
          some { p with mem := merge_block p.mem target next }
      else some pool
    match expanded with
    | some pool1 =>
      let next := PHYS_NEXT pool1.mem target
      -- try shrink
      let res := split_block pool1.mem target alloc_size
      match res.1 with
      | none =>
        (some ptr, { pool1 with mem := SET_PREV_USED res.2 next })
      | some release =>
        let m1 := SET_PREV_USED res.2 release
        -- check next block, merge?
        let pool2 :=
          if IS_FREE_BLOCK m1 next then
            let p := remove_free_block { pool1 with mem := m1 } next
            { p with mem := merge_block p.mem release next }
          else
            { pool1 with mem := SET_PREV_FREE m1 next }
        (some ptr, add_free_block pool2 release)
    | none =>
      -- expand part2: new alloc and copy
      match est_malloc pool size with
      | (none, pool1) => (none, pool1)   -- ENOMEM
      | (some new_ptr, pool1) =>
        -- At this point, BLOCK_SIZE(target) is read from the updated memory
        let len := u32_sub (BLOCK_SIZE pool1.mem target) sizeof_USED_BLOCK
        let m1 := copy_bytes pool1.mem new_ptr ptr len
        (some new_ptr, est_free { pool1 with mem := m1 } ptr)

/-! ## `est_usable_size` (estalloc.c lines 834-840) -/

/-- `est_usable_size` from estalloc.c. -/
def est_usable_size (m : Mem) (ptr : Nat) : Nat :=
  u32_sub (BLOCK_SIZE m (BLOCK_ADRS ptr)) sizeof_USED_BLOCK

/-! ## Profiling (`ESTALLOC_DEBUG` build: estalloc.c lines 881-925)

`ESTALLOC_PROF` is the `prof` member of the `ESTALLOC` handle.  Both
`take_profile` and `est_start_profiling` begin with
`ESTALLOC_PROF prof = est->prof;` — a by-value struct copy — then mutate
only that local copy and never store it back to `est->prof`.  The embedding
keeps the local-copy computations as `let`s and returns what the C code
actually leaves in `est->prof`. -/

structure ESTALLOC_PROF where
  profiling : Nat
  initial : Nat
  max : Nat
  min : Nat

/-- The `used` accumulation loop of `take_profile`. -/
def profile_used (m : Mem) (endOff : Nat) : Nat → Nat → Nat → Nat
  | 0, _, used => used
  | fuel+1, block, used =>
    if block < endOff then
      let used1 := if ! IS_FREE_BLOCK m block then (used + BLOCK_SIZE m block) % 2^32 else used
      profile_used m endOff fuel (PHYS_NEXT m block) used1
    else used

/-- `take_profile` from estalloc.c: all updates land in the local copy
`prof` of `est->prof`, which is discarded when the function returns, so the
stored profile is unchanged. -/
def take_profile (pool : Pool) (prof : ESTALLOC_PROF) : ESTALLOC_PROF :=
  let p0 := prof   -- ESTALLOC_PROF prof = est->prof
  let used := profile_used pool.mem (BPOOL_END pool) pool.size BPOOL_TOP 0
  let p1 := if p0.max < used then { p0 with max := used } else p0
  let p2 := if used < p1.min then { p1 with min := used } else p1
  let _ := p2      -- the function ends; est->prof was never written
  prof

/-- `est_start_profiling` from estalloc.c: `prof.profiling = 1` and the
`initial`/`min`/`max` resets are applied to the local copy only; `PROFILE()`
reads the stored `est->prof.profiling`, which is still the old value. -/
def est_start_profiling (pool : Pool) (prof : ESTALLOC_PROF) : ESTALLOC_PROF :=
  let p0 := prof   -- ESTALLOC_PROF prof = est->prof
  if p0.profiling ≠ 0 then prof
  else
    let p1 := { p0 with profiling := 1 }
    let p2 := { p1 with max := 0 }
    -- PROFILE(): if (est->prof.profiling) take_profile(est)
    let p3 := if prof.profiling ≠ 0 then take_profile pool p2 else p2
    let p4 := { p3 with initial := p3.max, min := p3.max }
    let _ := p4    -- the function ends; est->prof was never written
    prof

/-- `est_stop_profiling` from estalloc.c: the one profiling function that
really writes `est->prof` (`est->prof.profiling = 0`). -/
def est_stop_profiling (prof : ESTALLOC_PROF) : ESTALLOC_PROF :=
  { prof with profiling := 0 }

/-! ## C2: out-of-memory leaves the pool unchanged -/

theorem malloc_split_finish_fst (pool : Pool) (target alloc_size : Nat) :
    (malloc_split_finish pool target alloc_size).1 = some (target + sizeof_USED_BLOCK) := rfl

theorem malloc_found_target_fst (pool : Pool) (index fli sli target alloc_size : Nat) :
    (malloc_found_target pool index fli sli target alloc_size).1 =
      some (target + sizeof_USED_BLOCK) := by
  unfold malloc_found_target
  dsimp only
  split <;> exact malloc_split_finish_fst ..

theorem malloc_search_none {pool : Pool} {alloc_size : Nat} {p' : Pool}
    (h : malloc_search pool alloc_size = (none, p')) : p' = pool := by
  unfold malloc_search at h
  dsimp only at h
  split at h
  · exact absurd (congrArg Prod.fst h) (by simp [malloc_found_target_fst])
  · split at h
    · exact absurd (congrArg Prod.fst h) (by simp [malloc_found_target_fst])
    · split at h
      · unfold malloc_found_fli_sli at h
        dsimp only at h
        split at h
        · exact (Prod.mk.injEq .. ▸ h).2.symm
        · exact absurd (congrArg Prod.fst h) (by simp [malloc_found_target_fst])
      · split at h
        · unfold malloc_found_fli_sli at h
          dsimp only at h
          split at h
          · exact (Prod.mk.injEq .. ▸ h).2.symm
          · exact absurd (congrArg Prod.fst h) (by simp [malloc_found_target_fst])
        · split at h
          · exact (Prod.mk.injEq .. ▸ h).2.symm
          · exact absurd (congrArg Prod.fst h) (by simp [malloc_split_finish_fst])

theorem est_malloc_none {pool : Pool} {n : Nat} {p' : Pool}
    (h : est_malloc pool n = (none, p')) : p' = pool :=
  malloc_search_none (by simpa [est_malloc] using h)

theorem est_calloc_none {pool : Pool} {k m : Nat} {p' : Pool}
    (h : est_calloc pool k m = (none, p')) : p' = pool := by
  unfold est_calloc at h
  dsimp only at h
  split at h
  · next heq => exact (est_malloc_none heq) ▸ (Prod.mk.injEq .. ▸ h).2.symm
  · exact absurd (congrArg Prod.fst h) (by simp)

theorem est_realloc_none {pool : Pool} {ptr n : Nat} {p' : Pool}
    (h : est_realloc pool ptr n = (none, p')) : p' = pool := by
  unfold est_realloc at h
  dsimp only at h
  split at h
  · exact est_malloc_none h
  · split at h
    · split at h
      · exact absurd (congrArg Prod.fst h) (by simp)
      · exact absurd (congrArg Prod.fst h) (by simp)
    · split at h
      · next heq => exact (est_malloc_none heq) ▸ (Prod.mk.injEq .. ▸ h).2.symm
      · exact absurd (congrArg Prod.fst h) (by simp)

theorem est_permalloc_none {pool : Pool} {n : Nat} {p' : Pool}
    (h : est_permalloc pool n = (none, p')) : p' = pool := by
  unfold est_permalloc at h
  dsimp only at h
  split at h
  · exact (Prod.mk.injEq .. ▸ h).2.symm
  · split at h
    · exact est_malloc_none h
    · split at h
      · exact est_malloc_none h
      · split at h
        · exact absurd (congrArg Prod.fst h) (by simp)
        · exact absurd (congrArg Prod.fst h) (by simp)

/-- C2: whenever `est_malloc`, `est_calloc`, `est_realloc` or
`est_permalloc` reports out of memory (returns null), the returned pool
state is the argument pool, unchanged — in particular, for `est_realloc`
the block of the old pointer and its payload are exactly as before. -/
theorem c2_oom_pool_unchanged :
    (∀ pool n p', est_malloc pool n = (none, p') → p' = pool) ∧
    (∀ pool k m p', est_calloc pool k m = (none, p') → p' = pool) ∧
    (∀ pool ptr n p', est_realloc pool ptr n = (none, p') → p' = pool) ∧
    (∀ pool n p', est_permalloc pool n = (none, p') → p' = pool) :=
  ⟨fun _ _ _ h => est_malloc_none h, fun _ _ _ _ h => est_calloc_none h,
   fun _ _ _ _ h => est_realloc_none h, fun _ _ _ h => est_permalloc_none h⟩

/-- A 416-byte pool: its only free block is 40 bytes, so a 100-byte request
is out of memory. -/
def poolW416 : Pool := est_init (fun _ => 0) 416

/-- A 512-byte pool after `malloc(24)`: a 104-byte free block remains, so
`realloc(376, 300)` must move, and the inner `malloc(300)` fails. -/
def poolW512 : Pool := (est_malloc (est_init (fun _ => 0) 512) 24).2

theorem c2_oom_pool_unchanged_witness :
    (est_malloc poolW416 100 = (none, poolW416) ∧
      (est_malloc poolW416 100).2 = poolW416) ∧
    (est_calloc poolW416 10 10 = (none, poolW416) ∧
      (est_calloc poolW416 10 10).2 = poolW416) ∧
    (est_realloc poolW512 376 300 = (none, poolW512) ∧
      (est_realloc poolW512 376 300).2 = poolW512) ∧
    (est_permalloc poolW416 100 = (none, poolW416) ∧
      (est_permalloc poolW416 100).2 = poolW416) :=
  ⟨⟨rfl, c2_oom_pool_unchanged.1 poolW416 100 _ rfl⟩,
   ⟨rfl, c2_oom_pool_unchanged.2.1 poolW416 10 10 _ rfl⟩,
   ⟨rfl, c2_oom_pool_unchanged.2.2.1 poolW512 376 300 _ rfl⟩,
   ⟨rfl, c2_oom_pool_unchanged.2.2.2 poolW416 100 _ rfl⟩⟩

/-! ## C9: the profiling hook never records anything (code bug) -/

/-- C9 (code bug): `est_start_profiling` does not set the pool's profiling
flag and `take_profile` does not update the recorded `min`/`max`: both
functions copy `est->prof` into a local struct, mutate only the local copy,
and never store it back.  The stored profile is returned unchanged by both,
so after `est_start_profiling` the flag is still clear and no subsequent
mutation can ever update `initial`/`min`/`max`. -/
theorem c9_profiling_never_recorded :
    (∀ pool prof, est_start_profiling pool prof = prof) ∧
    (∀ pool prof, take_profile pool prof = prof) ∧
    (∀ pool prof, prof.profiling = 0 → (est_start_profiling pool prof).profiling = 0) := by
  refine ⟨fun pool prof => ?_, fun pool prof => rfl, fun pool prof h => ?_⟩
  · unfold est_start_profiling
    dsimp only
    split <;> rfl
  · have : est_start_profiling pool prof = prof := by
      unfold est_start_profiling
      dsimp only
      split <;> rfl
    rw [this, h]

theorem c9_profiling_never_recorded_witness :
    (⟨0, 0, 0, 0⟩ : ESTALLOC_PROF).profiling = 0 ∧
    (est_start_profiling poolW416 ⟨0, 0, 0, 0⟩).profiling = 0 :=
  ⟨rfl, c9_profiling_never_recorded.2.2 poolW416 ⟨0, 0, 0, 0⟩ rfl⟩

/-! ## Arithmetic facts about `u32_sub` and `malloc_alloc_size` -/

theorem u32_sub_of_le {a b : Nat} (hb : b ≤ a) (ha : a < 2^32) : u32_sub a b = a - b := by
  unfold u32_sub
  rw [Nat.mod_eq_of_lt (lt_of_le_of_lt hb ha)]
  have h1 : a + (2^32 - b) = 2^32 + (a - b) := by omega
  rw [h1, Nat.add_mod_left, Nat.mod_eq_of_lt (by omega)]

/-- Closed form of the `est_malloc`/`est_realloc` size rounding, valid while
`size + sizeof(USED_BLOCK)` does not overflow past the last aligned value. -/
theorem malloc_alloc_size_eq (n : Nat) (hn : n + 8 ≤ 2^32 - 8) :
    malloc_alloc_size n =
      if n + 8 + (8 - (n + 8) % 8) % 8 < 32 then 32 else n + 8 + (8 - (n + 8) % 8) % 8 := by
  unfold malloc_alloc_size
  rw [show sizeof_USED_BLOCK = 8 from rfl, show ALIGNMENT_MASK = 7 from rfl,
    show ESTALLOC_MIN_MEMORY_BLOCK_SIZE = 32 from rfl]
  dsimp only
  rw [show (7 : Nat) = 2^3 - 1 from rfl, Nat.and_pow_two_sub_one_eq_mod]
  have e : ((n + 8) % 2^32 + (2^32 - (n + 8) % 2^32) % 2^32 % 2^3) % 2^32 =
      n + 8 + (8 - (n + 8) % 8) % 8 := by omega
  rw [e]

theorem malloc_alloc_size_ge (n : Nat) (hn : n + 8 ≤ 2^32 - 8) :
    n + sizeof_USED_BLOCK ≤ malloc_alloc_size n := by
  rw [malloc_alloc_size_eq n hn, show sizeof_USED_BLOCK = 8 from rfl]
  split <;> omega

theorem malloc_alloc_size_mod8 (n : Nat) (hn : n + 8 ≤ 2^32 - 8) :
    malloc_alloc_size n % 8 = 0 := by
  rw [malloc_alloc_size_eq n hn]
  split <;> omega

theorem malloc_alloc_size_min (n : Nat) (hn : n + 8 ≤ 2^32 - 8) :
    ESTALLOC_MIN_MEMORY_BLOCK_SIZE ≤ malloc_alloc_size n := by
  rw [malloc_alloc_size_eq n hn, show ESTALLOC_MIN_MEMORY_BLOCK_SIZE = 32 from rfl]
  split <;> omega

theorem malloc_alloc_size_le {n B : Nat} (hn : n + 8 ≤ B) (hB8 : B % 8 = 0)
    (hBmin : 32 ≤ B) (hB : B < 2^32) : malloc_alloc_size n ≤ B := by
  rw [malloc_alloc_size_eq n (by omega)]
  split <;> omega

theorem split_block_fst_pos {m : Mem} {t a : Nat}
    (h : ¬ u32_sub (BLOCK_SIZE m t) a ≤ ESTALLOC_MIN_MEMORY_BLOCK_SIZE) :
    (split_block m t a).1 = some (t + a) := by
  unfold split_block
  rw [if_neg h]

/-! ## Bit-level and store-level toolkit -/

theorem load32_store32 (m : Mem) (off v off' : Nat) :
    load32 (store32 m off v) off' =
      if off' / 4 = off / 4 then v % 2^32 else load32 m off' := rfl

theorem store32_noop {m : Mem} {off v : Nat} (h : load32 m off = v) (hlt : v < 2^32) :
    store32 m off v = m := by
  funext i
  unfold store32
  split
  · next heq => rw [Nat.mod_eq_of_lt hlt, ← h, load32, heq]
  · rfl

theorem testBit_of_and_two_pow {S j : Nat} (h : S &&& 2^j ≠ 0) : S.testBit j = true := by
  by_contra hb
  rw [Bool.not_eq_true] at hb
  rw [Nat.and_two_pow, hb] at h
  simp at h

theorem and_two_pow_ne_zero {S j : Nat} (h : S.testBit j = true) : S &&& 2^j ≠ 0 := by
  rw [Nat.and_two_pow, h]
  simp

/-- Setting an already-set bit is a no-op. -/
theorem or_two_pow_self {S j : Nat} (h : S &&& 2^j ≠ 0) : S ||| 2^j = S := by
  apply Nat.eq_of_testBit_eq
  intro i
  rw [Nat.testBit_or, Nat.testBit_two_pow]
  by_cases hij : j = i
  · subst hij
    simp [testBit_of_and_two_pow h]
  · simp [hij]

/-- Clearing a set bit and setting it again restores the value. -/
theorem and_xor_or_restore {S w j : Nat} (hS : S < 2^w) (hj : j < w)
    (h : S &&& 2^j ≠ 0) : (S &&& ((2^w - 1) ^^^ 2^j)) ||| 2^j = S := by
  apply Nat.eq_of_testBit_eq
  intro i
  rw [Nat.testBit_or, Nat.testBit_and, Nat.testBit_xor, Nat.testBit_two_pow,
    Nat.testBit_two_pow_sub_one]
  by_cases hij : j = i
  · subst hij
    simp [testBit_of_and_two_pow h]
  · by_cases hiw : i < w
    · simp [hij, hiw]
    · have : S.testBit i = false := Nat.testBit_lt_two_pow (lt_of_lt_of_le hS
        (Nat.pow_le_pow_right (by norm_num) (by omega)))
      simp [hij, hiw, this]

/-- Setting a clear bit and clearing it again restores the value. -/
theorem or_and_xor_restore {S w j : Nat} (hS : S < 2^w) (hj : j < w)
    (h : S &&& 2^j = 0) : (S ||| 2^j) &&& ((2^w - 1) ^^^ 2^j) = S := by
  have hb : S.testBit j = false := by
    by_contra hb
    rw [Bool.not_eq_false] at hb
    exact absurd h (and_two_pow_ne_zero hb)
  apply Nat.eq_of_testBit_eq
  intro i
  rw [Nat.testBit_and, Nat.testBit_or, Nat.testBit_xor, Nat.testBit_two_pow,
    Nat.testBit_two_pow_sub_one]
  by_cases hij : j = i
  · subst hij
    simp [hb, hj]
  · by_cases hiw : i < w
    · simp [hij, hiw]
    · have : S.testBit i = false := Nat.testBit_lt_two_pow (lt_of_lt_of_le hS
        (Nat.pow_le_pow_right (by norm_num) (by omega)))
      simp [hij, hiw, this]

/-- Or-ing in bits below the mask does not change the masked value. -/
theorem or_low_and_mask {S b w k : Nat} (hb : b < 2^k) (hk : k ≤ w) :
    (S ||| b) &&& ((2^w - 1) ^^^ (2^k - 1)) = S &&& ((2^w - 1) ^^^ (2^k - 1)) := by
  apply Nat.eq_of_testBit_eq
  intro i
  rw [Nat.testBit_and, Nat.testBit_and, Nat.testBit_or, Nat.testBit_xor,
    Nat.testBit_two_pow_sub_one, Nat.testBit_two_pow_sub_one]
  by_cases hik : i < k
  · simp [hik, Nat.lt_of_lt_of_le hik hk]
  · have : b.testBit i = false := Nat.testBit_lt_two_pow (lt_of_lt_of_le hb
      (Nat.pow_le_pow_right (by norm_num) (by omega)))
    simp [hik, this]

theorem or_lt_two_pow {S b w : Nat} (hS : S < 2^w) (hb : b < 2^w) : S ||| b < 2^w :=
  Nat.or_lt_two_pow hS hb

/-- The five `uint32` masks of the block macros, in `(2^w - 1) ^^^ x` form. -/
theorem mask_fffffff8 : (2^32 - 8 : Nat) = (2^32 - 1) ^^^ (2^3 - 1) := by decide
theorem mask_fffffffe : (2^32 - 2 : Nat) = (2^32 - 1) ^^^ 2^0 := by decide
theorem mask_fffffffd : (2^32 - 3 : Nat) = (2^32 - 1) ^^^ 2^1 := by decide

/-- `BLOCK_SIZE` ignores the two flag bits. -/
theorem BLOCK_SIZE_or_one (v : Nat) :
    (v ||| 1) &&& (2^32 - 8) = v &&& (2^32 - 8) := by
  rw [mask_fffffff8]
  exact or_low_and_mask (by norm_num) (by norm_num)

theorem BLOCK_SIZE_or_two (v : Nat) :
    (v ||| 2) &&& (2^32 - 8) = v &&& (2^32 - 8) := by
  rw [mask_fffffff8]
  exact or_low_and_mask (by norm_num) (by norm_num)

/-- Setting then clearing the USED bit restores a word whose USED bit was 0. -/
theorem set_used_then_free (w : Nat) (hw : w < 2^32) (h0 : w &&& 1 = 0) :
    (w ||| 1) &&& (2^32 - 2) = w := by
  rw [mask_fffffffe]
  exact @or_and_xor_restore w 32 0 hw (by norm_num) (by simpa using h0)

/-- Setting then clearing the PREV_USED bit restores a word whose bit 1 was 0. -/
theorem set_prev_used_then_free (w : Nat) (hw : w < 2^32) (h1 : w &&& 2 = 0) :
    (w ||| 2) &&& (2^32 - 3) = w := by
  rw [mask_fffffffd]
  exact @or_and_xor_restore w 32 1 hw (by norm_num) (by simpa using h1)

/-- Or-ing bit 0 does not change bit 1. -/
theorem or_one_and_two (w : Nat) : (w ||| 1) &&& 2 = w &&& 2 := by
  show (w ||| 2^0) &&& 2^1 = w &&& 2^1
  apply Nat.eq_of_testBit_eq
  intro i
  rw [Nat.testBit_and, Nat.testBit_and, Nat.testBit_or, Nat.testBit_two_pow,
    Nat.testBit_two_pow]
  by_cases h : (1 : Nat) = i
  · simp [← h]
  · simp [h]

/-- Or-ing bit 1 does not change bit 0. -/
theorem or_two_and_one (w : Nat) : (w ||| 2) &&& 1 = w &&& 1 := by
  show (w ||| 2^1) &&& 2^0 = w &&& 2^0
  apply Nat.eq_of_testBit_eq
  intro i
  rw [Nat.testBit_and, Nat.testBit_and, Nat.testBit_or, Nat.testBit_two_pow,
    Nat.testBit_two_pow]
  by_cases h : (0 : Nat) = i
  · simp [← h]
  · simp [h]

/-! ## C7: shrinking realloc stays in place -/

/-- C7: for a live pointer `ptr` of usable size `u` (a well-formed used
block: size a multiple of the alignment, at least the minimum block size,
representable), if `n ≤ u` and the spare room `BLOCK_SIZE - alloc_size` is
large enough to form a legal free block, then `est_realloc pool ptr n`
returns `ptr` itself: the allocation shrinks in place and is not moved. -/
theorem c7_realloc_shrink_in_place
    (pool : Pool) (ptr n u : Nat)
    (hptr : ptr ≠ 0)
    (hu : est_usable_size pool.mem ptr = u)
    (hsz8 : BLOCK_SIZE pool.mem (BLOCK_ADRS ptr) % 8 = 0)
    (hszmin : ESTALLOC_MIN_MEMORY_BLOCK_SIZE ≤ BLOCK_SIZE pool.mem (BLOCK_ADRS ptr))
    (hszlt : BLOCK_SIZE pool.mem (BLOCK_ADRS ptr) < 2^32)
    (hn : n ≤ u)
    (hroom : ESTALLOC_MIN_MEMORY_BLOCK_SIZE <
      BLOCK_SIZE pool.mem (BLOCK_ADRS ptr) - malloc_alloc_size n) :
    (est_realloc pool ptr n).1 = some ptr := by
  have hminval : ESTALLOC_MIN_MEMORY_BLOCK_SIZE = 32 := rfl
  set B := BLOCK_SIZE pool.mem (BLOCK_ADRS ptr) with hB
  have hu8 : u = B - 8 := by
    rw [← hu]
    unfold est_usable_size
    rw [show sizeof_USED_BLOCK = 8 from rfl, u32_sub_of_le (by omega) hszlt]
  have hn8 : n + 8 ≤ 2^32 - 8 := by omega
  have halle : malloc_alloc_size n ≤ B :=
    malloc_alloc_size_le (by omega) hsz8 (by omega) hszlt
  have hfit : ¬ (B < malloc_alloc_size n) := not_lt.mpr halle
  have hsplit : ¬ u32_sub B (malloc_alloc_size n) ≤ ESTALLOC_MIN_MEMORY_BLOCK_SIZE := by
    rw [u32_sub_of_le halle hszlt]
    omega
  unfold est_realloc
  rw [if_neg hptr]
  dsimp only
  rw [← hB, if_neg hfit]
  dsimp only
  rw [split_block_fst_pos hsplit]

/-- A 1024-byte pool after `malloc(100)` (block of 112 bytes at offset 368,
pointer 376, usable size 104), then `realloc(376, 24)` has room to split. -/
def poolW1024 : Pool := (est_malloc (est_init (fun _ => 0) 1024) 100).2

theorem c7_realloc_shrink_in_place_witness :
    (376 : Nat) ≠ 0 ∧ est_usable_size poolW1024.mem 376 = 104 ∧
    BLOCK_SIZE poolW1024.mem (BLOCK_ADRS 376) % 8 = 0 ∧
    ESTALLOC_MIN_MEMORY_BLOCK_SIZE ≤ BLOCK_SIZE poolW1024.mem (BLOCK_ADRS 376) ∧
    BLOCK_SIZE poolW1024.mem (BLOCK_ADRS 376) < 2^32 ∧
    (24 : Nat) ≤ 104 ∧
    ESTALLOC_MIN_MEMORY_BLOCK_SIZE <
      BLOCK_SIZE poolW1024.mem (BLOCK_ADRS 376) - malloc_alloc_size 24 ∧
    (est_realloc poolW1024 376 24).1 = some 376 :=
  ⟨by decide, by rfl, by rfl, by decide, by decide, by decide, by decide,
    c7_realloc_shrink_in_place poolW1024 376 24 104 (by decide) (by rfl) (by rfl)
      (by decide) (by decide) (by decide) (by decide)⟩

theorem msb_sli_pow (k : Nat) (hk : k ≤ 7) : MSB_BIT1_SLI >>> k = 2^(7 - k) := by
  unfold MSB_BIT1_SLI
  rw [Nat.shiftRight_eq_div_pow]
  show 2^7 / 2^k = 2^(7-k)
  rw [Nat.pow_div hk (by norm_num)]

theorem msb_fli_pow (k : Nat) (hk : k ≤ 15) : MSB_BIT1_FLI >>> k = 2^(15 - k) := by
  unfold MSB_BIT1_FLI
  rw [Nat.shiftRight_eq_div_pow]
  show 2^15 / 2^k = 2^(15-k)
  rw [Nat.pow_div hk (by norm_num)]

theorem store32_store32_same {off off' : Nat} (m : Mem) (v v' : Nat)
    (h : off' / 4 = off / 4) : store32 (store32 m off v) off' v' = store32 m off' v' := by
  funext i
  unfold store32
  rw [h]
  by_cases hi : i = off / 4 <;> simp [hi]

theorem pool_ext {p q : Pool} (h1 : p.size = q.size)
    (h2 : p.free_fli_bitmap = q.free_fli_bitmap)
    (h3 : p.free_sli_bitmap = q.free_sli_bitmap)
    (h4 : p.free_blocks = q.free_blocks) (h5 : p.mem = q.mem) : p = q := by
  cases p
  cases q
  cases h1
  cases h2
  cases h3
  cases h4
  cases h5
  rfl

structure RoundtripReady (pool : Pool) (n target BS index : Nat) : Prop where
  hindex : calc_index (malloc_alloc_size n) = index
  htarget : pool.free_blocks index = target
  hBS : BLOCK_SIZE pool.mem target = BS
  hclass : calc_index BS = index
  ht0 : target ≠ 0
  htarget_lt : target < 2^32
  hfit : malloc_alloc_size n ≤ BS
  hnosplit : u32_sub BS (malloc_alloc_size n) ≤ ESTALLOC_MIN_MEMORY_BLOCK_SIZE
  hwt_lt : load32 pool.mem target < 2^32
  hwt_used : load32 pool.mem target &&& 1 = 0
  hwt_prev : load32 pool.mem target &&& 2 ≠ 0
  hwn_lt : load32 pool.mem (target + BS) < 2^32
  hwn_used : load32 pool.mem (target + BS) &&& 1 ≠ 0
  hwn_prev : load32 pool.mem (target + BS) &&& 2 = 0
  htop : load32 pool.mem (target + BS - 4) = target
  hprevf : load32 pool.mem (target + 8) = 0
  hnextf_lt : load32 pool.mem (target + 4) < 2^32
  hsli_lt : pool.free_sli_bitmap (FLI index) < 256
  hfli_lt : pool.free_fli_bitmap < 65536
  hsli_bit : pool.free_sli_bitmap (FLI index) &&& (MSB_BIT1_SLI >>> SLI index) ≠ 0
  hfli_bit : pool.free_fli_bitmap &&& (MSB_BIT1_FLI >>> FLI index) ≠ 0
  hd1 : target / 4 ≠ (target + 4) / 4
  hd2 : target / 4 ≠ (target + 8) / 4
  hd3 : target / 4 ≠ (target + BS - 4) / 4
  hd4 : target / 4 ≠ (target + BS) / 4
  hd5 : (target + 4) / 4 ≠ (target + 8) / 4
  hd6 : (target + 4) / 4 ≠ (target + BS - 4) / 4
  hd7 : (target + 4) / 4 ≠ (target + BS) / 4
  hd8 : (target + 8) / 4 ≠ (target + BS - 4) / 4
  hd9 : (target + 8) / 4 ≠ (target + BS) / 4
  hd10 : (target + BS - 4) / 4 ≠ (target + BS) / 4
  hnf : load32 pool.mem (target + 4) = 0 ∨
    (load32 pool.mem (load32 pool.mem (target + 4) + 8) = target ∧
     (load32 pool.mem (target + 4) + 8) / 4 ≠ target / 4 ∧
     (load32 pool.mem (target + 4) + 8) / 4 ≠ (target + 4) / 4 ∧
     (load32 pool.mem (target + 4) + 8) / 4 ≠ (target + 8) / 4 ∧
     (load32 pool.mem (target + 4) + 8) / 4 ≠ (target + BS - 4) / 4 ∧
     (load32 pool.mem (target + 4) + 8) / 4 ≠ (target + BS) / 4)

/-- The pool state after the fast-path, no-split `est_malloc` (proof-side
normal form). -/
def rtPoolAfterMalloc (pool : Pool) (target BS index : Nat) : Pool :=
  let nextf := load32 pool.mem (target + 4)
  let fb := fun i => if i = index then nextf else pool.free_blocks i
  let mA := if nextf = 0 then pool.mem else store32 pool.mem (nextf + 8) 0
  let sliB := if nextf = 0 then
      (fun i => if i = FLI index then
          pool.free_sli_bitmap (FLI index) &&& (255 ^^^ (MSB_BIT1_SLI >>> SLI index))
        else pool.free_sli_bitmap i)
    else pool.free_sli_bitmap
  let fliB := if nextf = 0 then
      (if sliB (FLI index) = 0 then
          pool.free_fli_bitmap &&& (65535 ^^^ (MSB_BIT1_FLI >>> FLI index))
        else pool.free_fli_bitmap)
    else pool.free_fli_bitmap
  let mB := store32 mA (target + BS) (load32 mA (target + BS) ||| 0x02)
  let mC := store32 mB target (load32 mB target ||| 0x01)
  { size := pool.size, free_fli_bitmap := fliB, free_sli_bitmap := sliB,
    free_blocks := fb, mem := mC }

theorem c6_malloc_eval (pool : Pool) (n target BS index : Nat)
    (h : RoundtripReady pool n target BS index) :
    est_malloc pool n = (some (target + sizeof_USED_BLOCK), rtPoolAfterMalloc pool target BS index) := by
  unfold est_malloc malloc_search
  dsimp only
  rw [h.hindex, h.htarget, if_pos ⟨h.ht0, h.hBS ▸ h.hfit⟩]
  unfold malloc_found_target
  dsimp only
  unfold rtPoolAfterMalloc
  dsimp only
  by_cases hnf0 : load32 pool.mem (target + 4) = 0
  · rw [if_pos hnf0, if_pos hnf0, if_pos hnf0, if_pos hnf0]
    unfold malloc_split_finish
    dsimp only
    have hsb : split_block pool.mem target (malloc_alloc_size n) = (none, pool.mem) := by
      unfold split_block
      rw [if_pos (by rw [h.hBS]; exact h.hnosplit)]
    rw [hsb]
    dsimp only
    unfold PHYS_NEXT SET_PREV_USED SET_USED_BLOCK
    rw [h.hBS]
  · rw [if_neg hnf0, if_neg hnf0, if_neg hnf0, if_neg hnf0]
    rcases h.hnf with hc | ⟨hback, hw1, hw2, hw3, hw4, hw5⟩
    · exact absurd hc hnf0
    unfold malloc_split_finish
    dsimp only
    have hmA_t : load32 (store32 pool.mem (load32 pool.mem (target + 4) + 8) 0) target
        = load32 pool.mem target := by
      rw [load32_store32, if_neg (fun hh => hw1 hh.symm)]
    have hsb : split_block (store32 pool.mem (load32 pool.mem (target + 4) + 8) 0) target
        (malloc_alloc_size n) = (none, store32 pool.mem (load32 pool.mem (target + 4) + 8) 0) := by
      unfold split_block
      rw [if_pos (by unfold BLOCK_SIZE; rw [hmA_t]; show u32_sub (BLOCK_SIZE pool.mem target) _ ≤ _; rw [h.hBS]; exact h.hnosplit)]
    rw [hsb]
    dsimp only
    unfold PHYS_NEXT SET_PREV_USED SET_USED_BLOCK BLOCK_SIZE
    have hBS' : load32 pool.mem target &&& (2^32 - 8) = BS := h.hBS
    rw [hmA_t, hBS']



theorem store32_comm {off off' : Nat} (m : Mem) (v v' : Nat) (h : off / 4 ≠ off' / 4) :
    store32 (store32 m off v) off' v' = store32 (store32 m off' v') off v := by
  funext i
  unfold store32
  by_cases h1 : i = off' / 4 <;> by_cases h2 : i = off / 4 <;>
    simp [h1, h2, h, Ne.symm h]

theorem c6_free_eval (pool : Pool) (n target BS index : Nat)
    (h : RoundtripReady pool n target BS index) :
    est_free (rtPoolAfterMalloc pool target BS index) (target + sizeof_USED_BLOCK) = pool := by
  have hBS' : load32 pool.mem target &&& (2^32 - 8) = BS := h.hBS
  have hwt1_lt : load32 pool.mem target ||| 1 < 2^32 := or_lt_two_pow h.hwt_lt (by norm_num)
  have hidx : index < 80 := by
    rw [← h.hclass, calc_index_eq_calcIndexT]
    exact calcIndexT_lt_80 _
  have hfli_le : FLI index ≤ 9 := by
    unfold FLI ESTALLOC_SLI_BIT_WIDTH
    rw [Nat.shiftRight_eq_div_pow]
    omega
  have hsli_le : SLI index ≤ 7 := by
    unfold SLI ESTALLOC_SLI_BIT_WIDTH
    rw [show (1 <<< 3 : Nat) - 1 = 7 from rfl, show (7:Nat) = 2^3 - 1 from rfl,
      Nat.and_pow_two_sub_one_eq_mod]
    omega
  have hadrs : BLOCK_ADRS (target + sizeof_USED_BLOCK) = target := by
    unfold BLOCK_ADRS
    rw [show sizeof_USED_BLOCK = 8 from rfl]
    omega
  have hsbit := h.hsli_bit
  have hfbit := h.hfli_bit
  rw [msb_sli_pow _ hsli_le] at hsbit
  rw [msb_fli_pow _ (by omega)] at hfbit
  unfold rtPoolAfterMalloc
  dsimp only
  by_cases hnf0 : load32 pool.mem (target + 4) = 0
  · -- the class list contained only the serving block
    simp only [hnf0, eq_self_iff_true, ite_true]
    -- loads through the two malloc stores
    have l_mB_n : load32 (store32 pool.mem (target + BS)
        (load32 pool.mem (target + BS) ||| 2)) (target + BS)
        = load32 pool.mem (target + BS) ||| 2 := by
      rw [load32_store32, if_pos rfl, Nat.mod_eq_of_lt (or_lt_two_pow h.hwn_lt (by norm_num))]
    have l_mB_t : load32 (store32 pool.mem (target + BS)
        (load32 pool.mem (target + BS) ||| 2)) target = load32 pool.mem target := by
      rw [load32_store32, if_neg h.hd4]
    unfold est_free
    rw [if_neg (by rw [show sizeof_USED_BLOCK = 8 from rfl]; omega : ¬ (target + sizeof_USED_BLOCK = 0))]
    dsimp only
    rw [hadrs]
    -- the word at `target` in the post-malloc memory
    have l_mC_t : load32 (store32 (store32 pool.mem (target + BS)
          (load32 pool.mem (target + BS) ||| 2)) target
          (load32 (store32 pool.mem (target + BS)
            (load32 pool.mem (target + BS) ||| 2)) target ||| 1)) target
        = load32 pool.mem target ||| 1 := by
      rw [load32_store32, if_pos rfl, l_mB_t, Nat.mod_eq_of_lt hwt1_lt]
    have l_mC_n : load32 (store32 (store32 pool.mem (target + BS)
          (load32 pool.mem (target + BS) ||| 2)) target
          (load32 (store32 pool.mem (target + BS)
            (load32 pool.mem (target + BS) ||| 2)) target ||| 1)) (target + BS)
        = load32 pool.mem (target + BS) ||| 2 := by
      rw [load32_store32, if_neg (fun hh => h.hd4 hh.symm), l_mB_n]
    have hPN : PHYS_NEXT (store32 (store32 pool.mem (target + BS)
          (load32 pool.mem (target + BS) ||| 2)) target
          (load32 (store32 pool.mem (target + BS)
            (load32 pool.mem (target + BS) ||| 2)) target ||| 1)) target = target + BS := by
      unfold PHYS_NEXT BLOCK_SIZE
      rw [l_mC_t, BLOCK_SIZE_or_one, hBS']
    rw [hPN]
    have hused_next : IS_FREE_BLOCK (store32 (store32 pool.mem (target + BS)
          (load32 pool.mem (target + BS) ||| 2)) target
          (load32 (store32 pool.mem (target + BS)
            (load32 pool.mem (target + BS) ||| 2)) target ||| 1)) (target + BS) = false := by
      unfold IS_FREE_BLOCK IS_USED_BLOCK
      rw [l_mC_n, or_two_and_one]
      have h2 : load32 pool.mem (target + BS) % 2 = 1 := by
        have h3 := h.hwn_used
        rw [Nat.and_one_is_mod] at h3
        omega
      simp [bne_iff_ne, Nat.and_one_is_mod, h2]
    rw [hused_next]
    simp only [Bool.false_eq_true, if_false]
    -- SET_PREV_FREE restores the next block's word
    unfold SET_PREV_FREE
    rw [l_mC_n, set_prev_used_then_free _ h.hwn_lt h.hwn_prev]
    -- names for the words and the evolving memory
    set wt := load32 pool.mem target with hwt_def
    set wn := load32 pool.mem (target + BS) with hwn_def
    set mB := store32 pool.mem (target + BS) (wn ||| 2) with hmB_def
    set mC := store32 mB target (load32 mB target ||| 1) with hmC_def
    set mD := store32 mC (target + BS) wn with hmD_def
    have Hwt_lt : wt < 2^32 := by rw [hwt_def]; exact h.hwt_lt
    have Hwt_used : wt &&& 1 = 0 := by rw [hwt_def]; exact h.hwt_used
    have Hwt_prev : wt &&& 2 ≠ 0 := by rw [hwt_def]; exact h.hwt_prev
    have Hwn_lt : wn < 2^32 := by rw [hwn_def]; exact h.hwn_lt
    have HBS2 : wt &&& (2^32 - 8) = BS := by rw [hwt_def]; exact hBS'
    have l_mC_t2 : load32 mC target = wt ||| 1 := by
      rw [hmC_def, load32_store32, if_pos rfl, hmB_def, load32_store32, if_neg h.hd4,
        ← hwt_def, Nat.mod_eq_of_lt (or_lt_two_pow Hwt_lt (by norm_num))]
    have l_mD_t : load32 mD target = wt ||| 1 := by
      rw [hmD_def, load32_store32, if_neg h.hd4, l_mC_t2]
    have hprev_used : IS_PREV_FREE mD target = false := by
      unfold IS_PREV_FREE IS_PREV_USED
      rw [l_mD_t, or_one_and_two]
      simp [bne_iff_ne, Hwt_prev]
    rw [hprev_used]
    simp only [Bool.false_eq_true, if_false]
    unfold add_free_block
    dsimp only
    unfold SET_FREE_BLOCK
    rw [l_mD_t, set_used_then_free _ Hwt_lt Hwt_used]
    have l_m1_t : load32 (store32 mD target wt) target = wt := by
      rw [load32_store32, if_pos rfl, Nat.mod_eq_of_lt Hwt_lt]
    have hBS_m1 : BLOCK_SIZE (store32 mD target wt) target = BS := by
      unfold BLOCK_SIZE
      rw [l_m1_t, HBS2]
    rw [hBS_m1]
    have l_m2_t : load32 (store32 (store32 mD target wt) (target + BS - 4) target) target = wt := by
      rw [load32_store32, if_neg h.hd3, l_m1_t]
    have hBS_m2 : BLOCK_SIZE (store32 (store32 mD target wt) (target + BS - 4) target) target = BS := by
      unfold BLOCK_SIZE
      rw [l_m2_t, HBS2]
    rw [hBS_m2, h.hclass]
    simp only [eq_self_iff_true, ite_true]
    rw [if_neg (by omega : ¬ ((0:Nat) ≠ 0))]
    refine pool_ext rfl ?_ ?_ ?_ ?_
    · -- FLI bitmap is restored
      rw [msb_fli_pow _ (by omega)]
      by_cases hz : pool.free_sli_bitmap (FLI index) &&& (255 ^^^ MSB_BIT1_SLI >>> SLI index) = 0
      · rw [if_pos hz, show (65535:Nat) = 2^16 - 1 from rfl]
        exact @and_xor_or_restore _ 16 _ h.hfli_lt (by omega) hfbit
      · rw [if_neg hz]
        exact or_two_pow_self hfbit
    · -- SLI bitmap is restored
      funext i
      by_cases hi : i = FLI index
      · simp only [hi, eq_self_iff_true, ite_true]
        rw [msb_sli_pow _ hsli_le, show (255:Nat) = 2^8 - 1 from rfl]
        exact @and_xor_or_restore _ 8 _ h.hsli_lt (by omega) hsbit
      · simp only [hi, ite_false, if_neg]
    · -- free list heads are restored
      funext i
      by_cases hi : i = index
      · simp only [hi, eq_self_iff_true, ite_true]
        exact h.htarget.symm
      · simp [hi]
    · -- the memory is restored
      rw [hmD_def, hmC_def]
      rw [store32_comm mB (load32 mB target ||| 1) wn h.hd4]
      rw [hmB_def]
      rw [store32_store32_same pool.mem (wn ||| 2) wn rfl]
      rw [store32_noop hwn_def.symm Hwn_lt]
      rw [store32_store32_same pool.mem _ wt rfl]
      rw [store32_noop hwt_def.symm Hwt_lt]
      rw [store32_noop h.htop h.htarget_lt]
      rw [store32_noop h.hprevf (by norm_num)]
      rw [store32_noop hnf0 (by norm_num)]
  · -- a successor block follows the serving block on the class list
    rcases h.hnf with hc | ⟨hback, hw1, hw2, hw3, hw4, hw5⟩
    · exact absurd hc hnf0
    simp only [if_neg hnf0]
    set nf := load32 pool.mem (target + 4) with hnf_def
    set wt := load32 pool.mem target with hwt_def
    set wn := load32 pool.mem (target + BS) with hwn_def
    set mA := store32 pool.mem (nf + 8) 0 with hmA_def
    have Hnf_lt : nf < 2^32 := by rw [hnf_def]; exact h.hnextf_lt
    have Hwt_lt : wt < 2^32 := by rw [hwt_def]; exact h.hwt_lt
    have Hwt_used : wt &&& 1 = 0 := by rw [hwt_def]; exact h.hwt_used
    have Hwt_prev : wt &&& 2 ≠ 0 := by rw [hwt_def]; exact h.hwt_prev
    have Hwn_lt : wn < 2^32 := by rw [hwn_def]; exact h.hwn_lt
    have Hwn_used : wn &&& 1 ≠ 0 := by rw [hwn_def]; exact h.hwn_used
    have Hwn_prev : wn &&& 2 = 0 := by rw [hwn_def]; exact h.hwn_prev
    have l_mA_n : load32 mA (target + BS) = wn := by
      rw [hmA_def, load32_store32, if_neg (Ne.symm hw5)]
    rw [l_mA_n]
    set mB := store32 mA (target + BS) (wn ||| 2) with hmB_def
    have l_mB_t : load32 mB target = wt := by
      rw [hmB_def, load32_store32, if_neg h.hd4, hmA_def, load32_store32, if_neg (Ne.symm hw1)]
    rw [l_mB_t]
    set mC := store32 mB target (wt ||| 1) with hmC_def
    unfold est_free
    rw [if_neg (by rw [show sizeof_USED_BLOCK = 8 from rfl]; omega : ¬ (target + sizeof_USED_BLOCK = 0))]
    dsimp only
    rw [hadrs]
    have l_mC_t : load32 mC target = wt ||| 1 := by
      rw [hmC_def, load32_store32, if_pos rfl, Nat.mod_eq_of_lt hwt1_lt]
    have hPN : PHYS_NEXT mC target = target + BS := by
      unfold PHYS_NEXT BLOCK_SIZE
      rw [l_mC_t, BLOCK_SIZE_or_one, hBS']
    rw [hPN]
    have l_mC_n : load32 mC (target + BS) = wn ||| 2 := by
      rw [hmC_def, load32_store32, if_neg (Ne.symm h.hd4), hmB_def, load32_store32, if_pos rfl,
        Nat.mod_eq_of_lt (or_lt_two_pow Hwn_lt (by norm_num))]
    have hused_next : IS_FREE_BLOCK mC (target + BS) = false := by
      unfold IS_FREE_BLOCK IS_USED_BLOCK
      rw [l_mC_n, or_two_and_one]
      have h2 : wn % 2 = 1 := by
        have h3 := Hwn_used
        rw [Nat.and_one_is_mod] at h3
        omega
      simp [bne_iff_ne, Nat.and_one_is_mod, h2]
    rw [hused_next]
    simp only [Bool.false_eq_true, if_false]
    unfold SET_PREV_FREE
    rw [l_mC_n, set_prev_used_then_free _ Hwn_lt Hwn_prev]
    set mD := store32 mC (target + BS) wn with hmD_def
    have l_mD_t : load32 mD target = wt ||| 1 := by
      rw [hmD_def, load32_store32, if_neg h.hd4, l_mC_t]
    have hprev_used : IS_PREV_FREE mD target = false := by
      unfold IS_PREV_FREE IS_PREV_USED
      rw [l_mD_t, or_one_and_two]
      simp [bne_iff_ne, Hwt_prev]
    rw [hprev_used]
    simp only [Bool.false_eq_true, if_false]
    unfold add_free_block
    dsimp only
    unfold SET_FREE_BLOCK
    rw [l_mD_t, set_used_then_free _ Hwt_lt Hwt_used]
    have l_m1_t : load32 (store32 mD target wt) target = wt := by
      rw [load32_store32, if_pos rfl, Nat.mod_eq_of_lt Hwt_lt]
    have hBS_m1 : BLOCK_SIZE (store32 mD target wt) target = BS := by
      unfold BLOCK_SIZE
      rw [l_m1_t, hBS']
    rw [hBS_m1]
    have l_m2_t : load32 (store32 (store32 mD target wt) (target + BS - 4) target) target = wt := by
      rw [load32_store32, if_neg h.hd3, l_m1_t]
    have hBS_m2 : BLOCK_SIZE (store32 (store32 mD target wt) (target + BS - 4) target) target = BS := by
      unfold BLOCK_SIZE
      rw [l_m2_t, hBS']
    rw [hBS_m2, h.hclass]
    simp only [eq_self_iff_true, ite_true]
    rw [if_pos hnf0]
    refine pool_ext rfl ?_ ?_ ?_ ?_
    · -- FLI bit of the class was already set
      rw [msb_fli_pow _ (by omega)]
      exact or_two_pow_self hfbit
    · -- SLI bit of the class was already set
      funext i
      by_cases hi : i = FLI index
      · simp only [hi, eq_self_iff_true, ite_true]
        rw [msb_sli_pow _ hsli_le]
        exact or_two_pow_self hsbit
      · simp only [hi, ite_false, if_neg]
    · -- free list heads are restored
      funext i
      by_cases hi : i = index
      · simp only [hi, eq_self_iff_true, ite_true]
        exact h.htarget.symm
      · simp [hi]
    · -- the memory is restored, word by word
      rw [hmD_def, hmC_def, hmB_def, hmA_def]
      funext i
      simp only [store32]
      by_cases c1 : i = (nf + 8) / 4
      · rw [if_pos c1, Nat.mod_eq_of_lt h.htarget_lt, c1]
        exact hback.symm
      rw [if_neg c1]
      by_cases c2 : i = (target + 4) / 4
      · rw [if_pos c2, Nat.mod_eq_of_lt Hnf_lt, c2]
        exact hnf_def
      rw [if_neg c2]
      by_cases c3 : i = (target + 8) / 4
      · rw [if_pos c3, Nat.zero_mod, c3]
        exact h.hprevf.symm
      rw [if_neg c3]
      by_cases c4 : i = (target + BS - 4) / 4
      · rw [if_pos c4, Nat.mod_eq_of_lt h.htarget_lt, c4]
        exact h.htop.symm
      rw [if_neg c4]
      by_cases c5 : i = target / 4
      · rw [if_pos c5, Nat.mod_eq_of_lt Hwt_lt, c5]
        exact hwt_def
      rw [if_neg c5]
      by_cases c6 : i = (target + BS) / 4
      · rw [if_pos c6, Nat.mod_eq_of_lt Hwn_lt, c6]
        exact hwn_def
      rw [if_neg c6, if_neg c5, if_neg c6, if_neg c1]



/-- Counterexample to C6 as stated: in a fresh 1024-byte pool, `est_malloc(100)`
succeeds (returning pointer 376) and splits the 648-byte free block; after
`est_free(376)` the split remainder's header word at byte offset 480 (word 120)
still holds the remainder size tag, so the pool is not byte-identical to the
state before the pair. -/
theorem c6_roundtrip_byte_counterexample :
    (est_malloc (est_init (fun _ => 0) 1024) 100).1 = some 376 ∧
    (est_free (est_malloc (est_init (fun _ => 0) 1024) 100).2 376).mem 120 ≠
      (est_init (fun _ => 0) 1024).mem 120 := by
  constructor
  · rfl
  · decide

/-- C6 (amended): when the block serving `est_malloc(pool, n)` is taken from the
head of its size class and the fit is close enough that no split happens
(`RoundtripReady`), `est_malloc(pool, n)` followed by `est_free` of the returned
pointer restores the pool exactly: same size, same FLI/SLI bitmaps, same
free-list heads, and byte-identical memory. -/
theorem c6_roundtrip_no_split (pool : Pool) (n target BS index : Nat)
    (h : RoundtripReady pool n target BS index) :
    (est_malloc pool n).1 = some (target + sizeof_USED_BLOCK) ∧
    est_free (est_malloc pool n).2 (target + sizeof_USED_BLOCK) = pool := by
  rw [c6_malloc_eval pool n target BS index h]
  exact ⟨rfl, c6_free_eval pool n target BS index h⟩

theorem c6_roundtrip_no_split_witness :
    (est_malloc (est_init (fun _ => 0) 1024) 640).1 = some (368 + sizeof_USED_BLOCK) ∧
    est_free (est_malloc (est_init (fun _ => 0) 1024) 640).2 (368 + sizeof_USED_BLOCK)
      = est_init (fun _ => 0) 1024 :=
  c6_roundtrip_no_split (est_init (fun _ => 0) 1024) 640 368 648 18
    ⟨rfl, rfl, rfl, rfl, by decide, by decide, by decide, by decide, by decide, rfl, by decide,
     by decide, by decide, rfl, rfl, rfl, by decide, by decide, by decide, by decide, by decide,
     by decide, by decide, by decide, by decide, by decide, by decide, by decide, by decide,
     by decide, by decide, Or.inl rfl⟩

end Estalloc
